import Mathlib

/-!
# Verification of the `snowflake` ID generator

Shallow embedding of `snowflake.go` (package `snowflake`): a Twitter-Snowflake
style 64-bit ID generator.  Machine integers are modelled as `Nat`/`Int` with
explicit two's-complement wrapping at 64 bits where the Go code can overflow.
Wall-clock reads (`time.Now`, `genMillisecond`) are modelled by passing the
observed millisecond readings explicitly: each call to `NextID` receives the
reading `now` taken at its start and the list `fut` of the readings the
busy-wait loop would observe, in order.
-/

/-! ## Constants (source lines 20-27) -/

/-- `sequenceMask = 1<<12 - 1`. -/
def sequenceMask : Nat := 1 <<< 12 - 1

/-- `workerMask = 1<<5 - 1`. -/
def workerMask : Nat := 1 <<< 5 - 1

/-- `dataCenterMask = 1<<5 - 1`. -/
def dataCenterMask : Nat := 1 <<< 5 - 1

/-- `workerLeftShift = 12`. -/
def workerLeftShift : Nat := 12

/-- `dataCenterLeftShift = 17`. -/
def dataCenterLeftShift : Nat := 17

/-- `timestampLeftShift = 22`. -/
def timestampLeftShift : Nat := 22

/-! ## The generator state (struct `SnowFlake`)

Go field types: `sequence int16`, `dataCenterID uint8`, `workerID uint8`,
`lastTimestamp int64`, `startTime time.Time`.  The `sequence` field only ever
holds values in `[0, 4095]` (it is `0` at construction and every write masks
with `sequenceMask`), so it is modelled as `Nat`; likewise the two `uint8`
identity fields.  `startTime` is only ever consumed through
`startTime.UnixNano()/1e6`, so the state stores that millisecond value
directly (`Time.UTC()` does not change the instant, hence not this value). -/

structure SnowFlake where
  sequence : Nat
  dataCenterID : Nat
  workerID : Nat
  lastTimestamp : Int
  startTimeMillis : Int
  deriving Repr, DecidableEq

/-! ## 64-bit two's-complement helpers -/

/-- The 64-bit pattern (as a natural number below `2^64`) of the Go `int64`
holding the integer `n`; Go arithmetic that overflows `int64` wraps to this
pattern. -/
def toUInt64pat (n : Int) : Nat := (n % (2 ^ 64 : Int)).toNat

/-- Read a 64-bit pattern back as the signed `int64` value. -/
def ofInt64pat (p : Nat) : Int :=
  if p < 2 ^ 63 then (p : Int) else (p : Int) - 2 ^ 64

/-- The ID assembly of source lines 101-104:
`elaspedMillisecond<<timestampLeftShift | int64(dataCenterID)<<dataCenterLeftShift
 | int64(workerID)<<workerLeftShift | int64(sequence)`.
The left shift of `elapsed` is Go `int64` arithmetic and wraps at 64 bits;
the identity and sequence operands are small and non-negative. -/
def assembleID (elapsed : Int) (dc w seq : Nat) : Int :=
  ofInt64pat ((((toUInt64pat elapsed <<< timestampLeftShift) % 2 ^ 64 |||
    dc <<< dataCenterLeftShift) ||| w <<< workerLeftShift) ||| seq)

/-! ## Node identity resolution (`machineID`, source lines 112-131) -/

/-- One element of the slice returned by `net.InterfaceAddrs()`:
whether the `net.Addr` is a `*net.IPNet`, whether its IP is loopback, and the
result of `IP.To4()` (`none` for a non-IPv4 address, otherwise the 4 octets). -/
structure IfAddr where
  isIPNet : Bool
  isLoopback : Bool
  ipv4 : Option (Nat × Nat × Nat × Nat)
  deriving Repr, DecidableEq

/-- The environment seen by `machineID`: `none` models `net.InterfaceAddrs()`
returning an error, `some as` models it returning the address list `as`. -/
abbrev MachineEnv := Option (List IfAddr)

/-- The `for _, a := range as` loop body of `machineID`. -/
def machineIDLoop : List IfAddr → Nat × Nat
  | [] => (0, 0)
  | a :: rest =>
    if !a.isIPNet || a.isLoopback then machineIDLoop rest
    else
      match a.ipv4 with
      | some (_, _, o3, o4) => (o3, o4)
      | none => machineIDLoop rest

/-- `machineID()` (source lines 112-131). -/
def machineID : MachineEnv → Nat × Nat
  | none => (0, 0)
  | some as => machineIDLoop as

/-! ## Constructors -/

/-- `NewWith(startTime, ids...)` (source lines 44-62).  `startTimeMillis` is
`startTime.UnixNano()/1e6` (unchanged by the `UTC()` call); `env` is the
machine environment consulted when `ids` is empty.  Go zero values initialise
`sequence` and `lastTimestamp` to `0`. -/
def NewWith (startTimeMillis : Int) (env : MachineEnv) (ids : List Nat) : SnowFlake :=
  let dcw :=
    if 2 ≤ ids.length then (ids.getD 0 0, ids.getD 1 0)
    else if ids.length = 1 then (ids.getD 0 0, ids.getD 0 0)
    else machineID env
  { sequence := 0
    dataCenterID := dcw.1 &&& dataCenterMask
    workerID := dcw.2 &&& workerMask
    lastTimestamp := 0
    startTimeMillis := startTimeMillis }

/-- The start time computed by `New()` (source lines 65-66):
`now := time.Now()` is the instant `nowMs` (Unix milliseconds) viewed in the
system's local time zone, modelled as a fixed offset of `offMin` minutes from
UTC; `now.Year()/Month()/Day()` therefore read the local calendar date, whose
day index since the Unix epoch is `(nowMs + offMin*60000) / 86400000` (Lean's
`Int` division is floor division for this positive divisor, matching calendar
arithmetic); `time.Date(y, m, d, 0, 0, 0, 0, time.UTC)` maps that calendar
date to the instant `dayIndex * 86400000`. -/
def newStartTimeMillis (nowMs offMin : Int) : Int :=
  ((nowMs + offMin * 60000) / 86400000) * 86400000

/-- `New()` (source lines 64-69). -/
def New (nowMs offMin : Int) (env : MachineEnv) : SnowFlake :=
  NewWith (newStartTimeMillis nowMs offMin) env [(machineID env).1, (machineID env).2]

/-! ## NextID (source lines 72-105) -/

/-- Outcome of one `NextID` call: `panic` is the Go
`panic("Clock moved backwards, Refusing to generate id")`; `diverge` marks the
busy-wait loop never terminating because none of the supplied future clock
readings exceeds `lastTimestamp` (the real loop would keep polling). -/
inductive NextOutcome where
  | panic
  | diverge
  | ok (id : Int)
  deriving Repr, DecidableEq

/-- The busy-wait loop `for millisecond <= s.lastTimestamp { millisecond =
genMillisecond() }` (source lines 87-89): it discards readings until the first
one strictly above `last`, which it returns. -/
def findAdvance (last : Int) (fut : List Int) : Option Int :=
  fut.find? fun m => decide (last < m)

/-- `checkPhase` is exactly the part of `NextID` executed *before*
`s.mutex.Lock()` (source lines 73-77): the clock comparison guarding the
panic; `true` means the call panics. -/
def checkPhase (s : SnowFlake) (now : Int) : Bool := now < s.lastTimestamp

/-- `lockedPhase` is the part of `NextID` from `s.mutex.Lock()` (source line
79) onwards: the sequence/timestamp read-modify-write under the mutex, then
the assembly of the ID from the captured locals. -/
def lockedPhase (s : SnowFlake) (now : Int) (fut : List Int) :
    NextOutcome × SnowFlake :=
  if now = s.lastTimestamp then
    if (s.sequence + 1) &&& sequenceMask = 0 then
      match findAdvance s.lastTimestamp fut with
      | none => (NextOutcome.diverge, { s with sequence := (s.sequence + 1) &&& sequenceMask })
      | some m =>
        (NextOutcome.ok (assembleID (m - s.startTimeMillis) s.dataCenterID s.workerID
            ((s.sequence + 1) &&& sequenceMask)),
          { s with sequence := (s.sequence + 1) &&& sequenceMask, lastTimestamp := m })
    else
      (NextOutcome.ok (assembleID (now - s.startTimeMillis) s.dataCenterID s.workerID
          ((s.sequence + 1) &&& sequenceMask)),
        { s with sequence := (s.sequence + 1) &&& sequenceMask, lastTimestamp := now })
  else
    (NextOutcome.ok (assembleID (now - s.startTimeMillis) s.dataCenterID s.workerID 0),
      { s with sequence := 0, lastTimestamp := now })

/-- `NextID()` (source lines 72-105): the backward-clock check, then the
locked read-modify-write and the ID assembly.  `now` is the millisecond
reading taken at the start of the call, `fut` the readings available to the
busy-wait loop. -/
def nextID (s : SnowFlake) (now : Int) (fut : List Int) :
    NextOutcome × SnowFlake :=
  if now < s.lastTimestamp then (NextOutcome.panic, s)
  else lockedPhase s now fut

/-- The ID that the state `s` describes: the assembly of source lines 101-104
applied to the stored `lastTimestamp` and `sequence`. -/
def mkID (s : SnowFlake) : Int :=
  assembleID (s.lastTimestamp - s.startTimeMillis) s.dataCenterID s.workerID s.sequence

/-- A sequential series of `NextID` calls, each given its initial clock
reading and its busy-wait readings; `none` as soon as one call panics or its
busy-wait cannot terminate. -/
def runNextID (s : SnowFlake) : List (Int × List Int) → Option (List Int × SnowFlake)
  | [] => some ([], s)
  | c :: rest =>
    match nextID s c.1 c.2 with
    | (NextOutcome.ok id, s') => (runNextID s' rest).map fun p => (id :: p.1, p.2)
    | _ => none

/-! ## Derived predicates -/

/-- Well-formedness of the generator state: both identity fields fit in 5
bits and the sequence fits in 12 bits. -/
abbrev WF (s : SnowFlake) : Prop :=
  s.dataCenterID ≤ 31 ∧ s.workerID ≤ 31 ∧ s.sequence ≤ 4095

/-- The millisecond instant `t` is within the representable window of the
epoch `e`: the elapsed time `t - e` is non-negative and fits in 41 bits. -/
abbrev InRange (e t : Int) : Prop := e ≤ t ∧ t - e < 2 ^ 41

/-- How one successful `NextID` call moves the `(lastTimestamp, sequence)`
pair: either the timestamp strictly advances and the sequence resets, or the
timestamp is unchanged and the sequence strictly increments below its bound. -/
def StepIncr (s s' : SnowFlake) : Prop :=
  (s.lastTimestamp < s'.lastTimestamp ∧ s'.sequence = 0) ∨
  (s'.lastTimestamp = s.lastTimestamp ∧ s'.sequence = s.sequence + 1 ∧ s.sequence < 4095)

/-- Characterisation used for §4.2: an address usable by `machineID`, i.e. a
`*net.IPNet` that is not loopback and has an IPv4 form. -/
def usableIPv4 (a : IfAddr) : Bool := a.isIPNet && !a.isLoopback && a.ipv4.isSome

/-- The (third, fourth) octet pair of an address's IPv4 form. -/
def octets34 (a : IfAddr) : Nat × Nat :=
  match a.ipv4 with
  | some (_, _, o3, o4) => (o3, o4)
  | none => (0, 0)

/-- Modelled from the spec (§4.1 Default construction, the claim under test):
"epoch is set to midnight (start of day, UTC) of the moment of construction",
i.e. the start of the current *UTC* day of the instant `nowMs`. -/
def startOfUTCDaySpec (nowMs : Int) : Int := (nowMs / 86400000) * 86400000

/-! ## Bit-layout lemmas -/

/-- Disjoint OR is addition: shifting `a` left by `k` and OR-ing a value below
`2^k` is the same as `a * 2^k + b`. -/
lemma mul_pow_lor_add (a b k : Nat) (hb : b < 2 ^ k) :
    (a * 2 ^ k) ||| b = a * 2 ^ k + b := by
  rw [Nat.mul_comm a (2 ^ k), ← Nat.mul_add_lt_is_or hb a, Nat.mul_comm (2 ^ k) a]

/-- Disjoint OR is addition: shifting `a` left by `k` and OR-ing a value below
`2^k` is the same as `a * 2^k + b`. -/
lemma shiftLeft_lor_add (a b k : Nat) (hb : b < 2 ^ k) :
    (a <<< k) ||| b = a * 2 ^ k + b := by
  rw [Nat.shiftLeft_eq, mul_pow_lor_add a b k hb]

/-- On in-range inputs the wrapped assembly of `assembleID` is the exact
linear combination of the four fields. -/
lemma assembleID_linear (e : Int) (dc w seq : Nat)
    (h0 : 0 ≤ e) (h41 : e < 2 ^ 41) (hdc : dc ≤ 31) (hw : w ≤ 31) (hseq : seq ≤ 4095) :
    assembleID e dc w seq =
      ((e.toNat * 2 ^ 22 + dc * 2 ^ 17 + w * 2 ^ 12 + seq : Nat) : Int) := by
  have h41' : (2 ^ 41 : Int) = 2199023255552 := by norm_num
  have hpat : toUInt64pat e = e.toNat := by
    unfold toUInt64pat
    rw [Int.emod_eq_of_lt h0 (by omega)]
  have hn : e.toNat < 2199023255552 := by omega
  unfold assembleID ofInt64pat
  rw [hpat]
  simp only [timestampLeftShift, dataCenterLeftShift, workerLeftShift]
  have h1 : (w <<< 12) ||| seq = w * 2 ^ 12 + seq :=
    shiftLeft_lor_add _ _ _ (by omega)
  have h2 : (dc <<< 17) ||| (w * 2 ^ 12 + seq) = dc * 2 ^ 17 + (w * 2 ^ 12 + seq) :=
    shiftLeft_lor_add _ _ _ (by norm_num; omega)
  have hsh : e.toNat <<< 22 = e.toNat * 2 ^ 22 := Nat.shiftLeft_eq _ _
  have hshlt : e.toNat * 2 ^ 22 < 2 ^ 64 := by omega
  rw [hsh, Nat.mod_eq_of_lt hshlt, Nat.lor_assoc, Nat.lor_assoc, h1, h2,
    mul_pow_lor_add _ _ _ (by omega)]
  have hlt : e.toNat * 2 ^ 22 + (dc * 2 ^ 17 + (w * 2 ^ 12 + seq)) < 2 ^ 63 := by
    omega
  rw [if_pos ?_]
  · push_cast; ring
  · exact_mod_cast hlt

/-! ## Step lemmas for `nextID` -/

lemma and_sequenceMask (x : Nat) : x &&& sequenceMask = x % 2 ^ 12 := by
  have h : sequenceMask = 2 ^ 12 - 1 := rfl
  rw [h, Nat.and_pow_two_sub_one_eq_mod]

/-- Everything a successful `nextID` call guarantees: configuration fields
untouched, the returned ID is the one described by the new state, the new
sequence is in bounds, the adopted millisecond is one of the supplied clock
readings, and the `(lastTimestamp, sequence)` pair strictly advances. -/
lemma nextID_ok (s : SnowFlake) (now : Int) (fut : List Int) (id : Int) (s' : SnowFlake)
    (h : nextID s now fut = (NextOutcome.ok id, s')) :
    s'.startTimeMillis = s.startTimeMillis ∧
    s'.dataCenterID = s.dataCenterID ∧
    s'.workerID = s.workerID ∧
    id = mkID s' ∧
    s'.sequence ≤ 4095 ∧
    (s'.lastTimestamp = now ∨ s'.lastTimestamp ∈ fut) ∧
    (s.sequence ≤ 4095 → StepIncr s s') := by
  unfold nextID lockedPhase at h
  split_ifs at h with hlt heq hseq0
  · simp at h
  · cases hf : findAdvance s.lastTimestamp fut with
    | none => rw [hf] at h; simp at h
    | some m =>
      rw [hf] at h
      injection h with h1 h2
      injection h1 with h1
      subst h1; subst h2
      simp only [findAdvance] at hf
      have hm : s.lastTimestamp < m := by
        have hp := List.find?_some (p := fun x => decide (s.lastTimestamp < x)) hf
        exact of_decide_eq_true hp
      have hmem : m ∈ fut := List.mem_of_find?_eq_some hf
      refine ⟨rfl, rfl, rfl, by simp [mkID], ?_, ?_, ?_⟩
      · show (s.sequence + 1) &&& sequenceMask ≤ 4095
        rw [hseq0]
        omega
      · exact Or.inr hmem
      · intro _
        exact Or.inl ⟨hm, hseq0⟩
  · injection h with h1 h2
    injection h1 with h1
    subst h1; subst h2
    refine ⟨rfl, rfl, rfl, by simp [mkID], ?_, Or.inl rfl, ?_⟩
    · calc (s.sequence + 1) &&& sequenceMask ≤ sequenceMask := Nat.and_le_right
        _ ≤ 4095 := by decide
    · intro hle
      right
      have hmod := and_sequenceMask (s.sequence + 1)
      have hlt4095 : s.sequence < 4095 := by
        rcases Nat.lt_or_ge s.sequence 4095 with h4 | h4
        · exact h4
        · exfalso
          have hx : s.sequence = 4095 := by omega
          apply hseq0
          rw [hmod, hx]
          decide
      refine ⟨by simp [heq], ?_, hlt4095⟩
      simp only [hmod]
      omega
  · injection h with h1 h2
    injection h1 with h1
    subst h1; subst h2
    refine ⟨rfl, rfl, rfl, by simp [mkID], Nat.le_refl 0 |>.trans (by omega), Or.inl rfl, ?_⟩
    intro _
    exact Or.inl ⟨show s.lastTimestamp < now by omega, rfl⟩

/-- On states whose timestamps are in the 41-bit window, the step relation
`StepIncr` makes the described ID strictly increase. -/
lemma mkID_lt_of_step (s s' : SnowFlake)
    (hdc : s.dataCenterID ≤ 31) (hw : s.workerID ≤ 31)
    (hseq : s.sequence ≤ 4095) (hseq' : s'.sequence ≤ 4095)
    (hst : s'.startTimeMillis = s.startTimeMillis)
    (hdce : s'.dataCenterID = s.dataCenterID) (hwe : s'.workerID = s.workerID)
    (hr : InRange s.startTimeMillis s.lastTimestamp)
    (hr' : InRange s.startTimeMillis s'.lastTimestamp)
    (hstep : StepIncr s s') : mkID s < mkID s' := by
  obtain ⟨hr1, hr2⟩ := hr
  obtain ⟨hr1', hr2'⟩ := hr'
  unfold mkID
  rw [hst, hdce, hwe]
  rw [assembleID_linear _ _ _ _ (by omega) (by omega) hdc hw hseq,
    assembleID_linear _ _ _ _ (by omega) (by omega) hdc hw hseq']
  rw [Nat.cast_lt]
  unfold StepIncr at hstep
  rcases hstep with ⟨hts, hs0⟩ | ⟨hts, hs1, hlt⟩
  · rw [hs0]
    have : (s.lastTimestamp - s.startTimeMillis).toNat <
        (s'.lastTimestamp - s.startTimeMillis).toNat := by omega
    omega
  · rw [hts, hs1]
    omega

/-! ## Runs of sequential calls -/

/-- All clock readings a series of calls can observe lie in the 41-bit
window of the epoch `e`. -/
abbrev CallsInRange (e : Int) (calls : List (Int × List Int)) : Prop :=
  ∀ c ∈ calls, InRange e c.1 ∧ ∀ m ∈ c.2, InRange e m

/-- Lower-bound invariant for a run: starting from a well-formed state whose
timestamp is in range, every ID a successful run returns exceeds the ID the
start state describes, and the returned IDs strictly increase. -/
lemma runNextID_lb (e : Int) (calls : List (Int × List Int)) :
    ∀ (s : SnowFlake) (ids : List Int) (sf : SnowFlake),
    s.startTimeMillis = e → WF s → InRange e s.lastTimestamp →
    CallsInRange e calls →
    runNextID s calls = some (ids, sf) →
    List.Pairwise (· < ·) ids ∧ ∀ i ∈ ids, mkID s < i := by
  induction calls with
  | nil =>
    intro s ids sf he hWF hr hcr hrun
    simp only [runNextID, Option.some.injEq, Prod.mk.injEq] at hrun
    rw [← hrun.1]
    simp
  | cons c rest ih =>
    intro s ids sf he hWF hr hcr hrun
    unfold runNextID at hrun
    rcases hn : nextID s c.1 c.2 with ⟨out, s1⟩
    rw [hn] at hrun
    cases out with
    | panic => simp at hrun
    | diverge => simp at hrun
    | ok id =>
      have hrun1 : Option.map (fun p => (id :: p.1, p.2)) (runNextID s1 rest) =
          some (ids, sf) := hrun
      cases hrest : runNextID s1 rest with
      | none => rw [hrest] at hrun1; simp at hrun1
      | some p =>
        rw [hrest] at hrun1
        have hrun2 : ((id :: p.1, p.2) : List Int × SnowFlake) = (ids, sf) := by
          injection hrun1
        injection hrun2 with hids hsf
        obtain ⟨hst, hdce, hwe, hid, hseq2, hmem, hstepi⟩ :=
          nextID_ok _ _ _ _ _ hn
        have hWF1 : WF s1 := ⟨by rw [hdce]; exact hWF.1, by rw [hwe]; exact hWF.2.1, hseq2⟩
        have hc : InRange e c.1 ∧ ∀ m ∈ c.2, InRange e m := hcr c (by simp)
        have hr1 : InRange e s1.lastTimestamp := by
          rcases hmem with h | h
          · rw [h]; exact hc.1
          · exact hc.2 _ h
        have hcr1 : CallsInRange e rest := fun d hd => hcr d (by simp [hd])
        have hlt1 : mkID s < mkID s1 :=
          mkID_lt_of_step s s1 hWF.1 hWF.2.1 hWF.2.2 hseq2 hst hdce hwe
            (by rw [he]; exact hr) (by rw [he]; exact hr1) (hstepi hWF.2.2)
        obtain ⟨hpw, hlb⟩ := ih s1 p.1 p.2 (hst.trans he) hWF1 hr1 hcr1 hrest
        rw [← hids]
        have hlb2 : ∀ i ∈ p.1, id < i := by
          intro i hi
          rw [hid]
          exact hlb i hi
        refine ⟨List.pairwise_cons.mpr ⟨hlb2, hpw⟩, ?_⟩
        intro i hi
        rcases List.mem_cons.mp hi with h | h
        · rw [h, hid]; exact hlt1
        · exact lt_trans hlt1 (hlb i h)

/-- **C1.** For a single generator instance, under a non-decreasing system
clock — modelled by the run succeeding, i.e. every call passes the
backward-clock check and every busy-wait terminates — and with all observed
clock readings inside the 41-bit window of the configured epoch, every ID
returned by a sequential series of `NextID` calls is strictly greater than
every ID previously returned by that same instance; in particular all
returned IDs are pairwise distinct. -/
theorem C1_sequential_ids_strictly_increase (s : SnowFlake)
    (calls : List (Int × List Int)) (ids : List Int) (sf : SnowFlake)
    (hWF : WF s)
    (hcr : CallsInRange s.startTimeMillis calls)
    (hrun : runNextID s calls = some (ids, sf)) :
    List.Pairwise (· < ·) ids := by
  cases calls with
  | nil =>
    simp only [runNextID, Option.some.injEq, Prod.mk.injEq] at hrun
    rw [← hrun.1]
    simp
  | cons c rest =>
    unfold runNextID at hrun
    rcases hn : nextID s c.1 c.2 with ⟨out, s1⟩
    rw [hn] at hrun
    cases out with
    | panic => simp at hrun
    | diverge => simp at hrun
    | ok id =>
      have hrun1 : Option.map (fun p => (id :: p.1, p.2)) (runNextID s1 rest) =
          some (ids, sf) := hrun
      cases hrest : runNextID s1 rest with
      | none => rw [hrest] at hrun1; simp at hrun1
      | some p =>
        rw [hrest] at hrun1
        have hrun2 : ((id :: p.1, p.2) : List Int × SnowFlake) = (ids, sf) := by
          injection hrun1
        injection hrun2 with hids hsf
        obtain ⟨hst, hdce, hwe, hid, hseq2, hmem, _⟩ := nextID_ok _ _ _ _ _ hn
        have hWF1 : WF s1 :=
          ⟨by rw [hdce]; exact hWF.1, by rw [hwe]; exact hWF.2.1, hseq2⟩
        have hc := hcr c (by simp)
        have hr1 : InRange s.startTimeMillis s1.lastTimestamp := by
          rcases hmem with h | h
          · rw [h]; exact hc.1
          · exact hc.2 _ h
        have hcr1 : CallsInRange s.startTimeMillis rest :=
          fun d hd => hcr d (by simp [hd])
        obtain ⟨hpw, hlb⟩ :=
          runNextID_lb s.startTimeMillis rest s1 p.1 p.2 hst hWF1 hr1 hcr1 hrest
        rw [← hids]
        refine List.pairwise_cons.mpr ⟨?_, hpw⟩
        intro i hi
        rw [hid]
        exact hlb i hi

/-- Witness for C1: a concrete three-call run from a fresh generator with
identity `(3, 5)` and epoch `0`, producing three strictly increasing IDs. -/
theorem C1_sequential_ids_strictly_increase_witness :
    List.Pairwise (· < ·) ([42356736, 42356737, 46551040] : List Int) :=
  C1_sequential_ids_strictly_increase ⟨0, 3, 5, 0, 0⟩
    [(10, []), (10, []), (11, [])]
    [42356736, 42356737, 46551040] ⟨0, 3, 5, 11, 0⟩
    (by decide) (by decide) (by decide)

/-! ## Field extraction -/

lemma pattern_extract (n dc w seq : Nat)
    (hdc : dc ≤ 31) (hw : w ≤ 31) (hseq : seq ≤ 4095) :
    (n * 2 ^ 22 + dc * 2 ^ 17 + w * 2 ^ 12 + seq) &&& (2 ^ 12 - 1) = seq ∧
    ((n * 2 ^ 22 + dc * 2 ^ 17 + w * 2 ^ 12 + seq) >>> 12) &&& (2 ^ 5 - 1) = w ∧
    ((n * 2 ^ 22 + dc * 2 ^ 17 + w * 2 ^ 12 + seq) >>> 17) &&& (2 ^ 5 - 1) = dc ∧
    (n * 2 ^ 22 + dc * 2 ^ 17 + w * 2 ^ 12 + seq) >>> 22 = n := by
  rw [Nat.and_pow_two_sub_one_eq_mod, Nat.shiftRight_eq_div_pow,
    Nat.shiftRight_eq_div_pow, Nat.shiftRight_eq_div_pow,
    Nat.and_pow_two_sub_one_eq_mod, Nat.and_pow_two_sub_one_eq_mod]
  refine ⟨?_, ?_, ?_, ?_⟩ <;> omega

lemma toUInt64pat_assembleID (e : Int) (dc w seq : Nat)
    (h0 : 0 ≤ e) (h41 : e < 2 ^ 41) (hdc : dc ≤ 31) (hw : w ≤ 31) (hseq : seq ≤ 4095) :
    toUInt64pat (assembleID e dc w seq) =
      e.toNat * 2 ^ 22 + dc * 2 ^ 17 + w * 2 ^ 12 + seq := by
  rw [assembleID_linear e dc w seq h0 h41 hdc hw hseq]
  unfold toUInt64pat
  have hlt : ((e.toNat * 2 ^ 22 + dc * 2 ^ 17 + w * 2 ^ 12 + seq : Nat) : Int) <
      2 ^ 64 := by
    have : (e.toNat * 2 ^ 22 + dc * 2 ^ 17 + w * 2 ^ 12 + seq) < 2 ^ 64 := by omega
    exact_mod_cast this
  rw [Int.emod_eq_of_lt (by exact_mod_cast Nat.zero_le _) hlt]
  omega

/-- **C2.** Every ID returned by `NextID` (on a well-formed generator, with
the elapsed milliseconds of the call inside the 41-bit window) decomposes
exactly per the published bit layout: the ID equals the OR-assembly
`(elapsed << 22) | (groupId << 17) | (workerId << 12) | sequence`; bits 0-11
are the sequence value captured for that call, a value in `[0, 4095]`; bits
12-16 are the configured worker id; bits 17-21 are the configured group
(data-center) id; and right-shifting by 22 recovers the epoch-relative
elapsed milliseconds — no field overlaps another. -/
theorem C2_bit_layout (s : SnowFlake) (now : Int) (fut : List Int)
    (id : Int) (s' : SnowFlake)
    (hdc : s.dataCenterID ≤ 31) (hw : s.workerID ≤ 31)
    (hok : nextID s now fut = (NextOutcome.ok id, s'))
    (hr : InRange s.startTimeMillis s'.lastTimestamp) :
    id = assembleID (s'.lastTimestamp - s.startTimeMillis)
        s.dataCenterID s.workerID s'.sequence ∧
    s'.sequence ≤ 4095 ∧
    toUInt64pat id &&& (2 ^ 12 - 1) = s'.sequence ∧
    (toUInt64pat id >>> 12) &&& (2 ^ 5 - 1) = s.workerID ∧
    (toUInt64pat id >>> 17) &&& (2 ^ 5 - 1) = s.dataCenterID ∧
    toUInt64pat id >>> 22 = (s'.lastTimestamp - s.startTimeMillis).toNat := by
  obtain ⟨hst, hdce, hwe, hid, hseq2, _, _⟩ := nextID_ok _ _ _ _ _ hok
  have hdc' : s'.dataCenterID ≤ 31 := by rw [hdce]; exact hdc
  have hw' : s'.workerID ≤ 31 := by rw [hwe]; exact hw
  have hidm : id = assembleID (s'.lastTimestamp - s.startTimeMillis)
      s.dataCenterID s.workerID s'.sequence := by
    rw [hid]
    unfold mkID
    rw [hst, hdce, hwe]
  have hpat : toUInt64pat id =
      (s'.lastTimestamp - s.startTimeMillis).toNat * 2 ^ 22 +
        s.dataCenterID * 2 ^ 17 + s.workerID * 2 ^ 12 + s'.sequence := by
    rw [hidm]
    exact toUInt64pat_assembleID _ _ _ _ (by omega) (by omega) hdc hw hseq2
  have hext := pattern_extract (s'.lastTimestamp - s.startTimeMillis).toNat
    s.dataCenterID s.workerID s'.sequence hdc hw hseq2
  rw [hpat]
  exact ⟨hidm, hseq2, hext.1, hext.2.1, hext.2.2.1, hext.2.2.2⟩

/-- Witness for C2: a concrete call from a fresh generator with identity
`(3, 5)`, epoch `0`, at millisecond `10`. -/
theorem C2_bit_layout_witness :
    (42356736 : Int) = assembleID ((10 : Int) - 0) 3 5 0 ∧
    (0 : Nat) ≤ 4095 ∧
    toUInt64pat 42356736 &&& (2 ^ 12 - 1) = 0 ∧
    (toUInt64pat 42356736 >>> 12) &&& (2 ^ 5 - 1) = 5 ∧
    (toUInt64pat 42356736 >>> 17) &&& (2 ^ 5 - 1) = 3 ∧
    toUInt64pat 42356736 >>> 22 = ((10 : Int) - 0).toNat :=
  C2_bit_layout ⟨0, 3, 5, 0, 0⟩ 10 [] 42356736 ⟨0, 3, 5, 10, 0⟩
    (by decide) (by decide) (by decide) (by decide)

/-- **C9.** For every `NextID` call on a well-formed generator whose
epoch-relative elapsed milliseconds satisfies `0 ≤ elapsed < 2^41`, the
returned 64-bit signed integer is non-negative and below `2^63`, i.e. the
sign bit (bit 63 of its 64-bit pattern) is `0`: the four packed fields
occupy at most 63 bits. -/
theorem C9_id_nonnegative (s : SnowFlake) (now : Int) (fut : List Int)
    (id : Int) (s' : SnowFlake)
    (hdc : s.dataCenterID ≤ 31) (hw : s.workerID ≤ 31)
    (hok : nextID s now fut = (NextOutcome.ok id, s'))
    (h0 : 0 ≤ s'.lastTimestamp - s.startTimeMillis)
    (h41 : s'.lastTimestamp - s.startTimeMillis < 2 ^ 41) :
    0 ≤ id ∧ id < 2 ^ 63 ∧ (toUInt64pat id).testBit 63 = false := by
  obtain ⟨hst, hdce, hwe, hid, hseq2, _, _⟩ := nextID_ok _ _ _ _ _ hok
  have hlin : id = ((( s'.lastTimestamp - s.startTimeMillis).toNat * 2 ^ 22 +
      s.dataCenterID * 2 ^ 17 + s.workerID * 2 ^ 12 + s'.sequence : Nat) : Int) := by
    rw [hid]
    unfold mkID
    rw [hst, hdce, hwe]
    exact assembleID_linear _ _ _ _ h0 h41 hdc hw hseq2
  have hpat : toUInt64pat id =
      (s'.lastTimestamp - s.startTimeMillis).toNat * 2 ^ 22 +
        s.dataCenterID * 2 ^ 17 + s.workerID * 2 ^ 12 + s'.sequence := by
    rw [hid]
    unfold mkID
    rw [hst, hdce, hwe]
    exact toUInt64pat_assembleID _ _ _ _ h0 h41 hdc hw hseq2
  have hbound : (s'.lastTimestamp - s.startTimeMillis).toNat * 2 ^ 22 +
      s.dataCenterID * 2 ^ 17 + s.workerID * 2 ^ 12 + s'.sequence < 2 ^ 63 := by
    omega
  refine ⟨?_, ?_, ?_⟩
  · rw [hlin]
    exact_mod_cast Nat.zero_le _
  · rw [hlin]
    exact_mod_cast hbound
  · rw [hpat]
    exact Nat.testBit_lt_two_pow hbound

/-- Witness for C9: the concrete call of the C2 witness yields a
non-negative ID with sign bit `0`. -/
theorem C9_id_nonnegative_witness :
    (0 : Int) ≤ 42356736 ∧ (42356736 : Int) < 2 ^ 63 ∧
    (toUInt64pat 42356736).testBit 63 = false :=
  C9_id_nonnegative ⟨0, 3, 5, 0, 0⟩ 10 [] 42356736 ⟨0, 3, 5, 10, 0⟩
    (by decide) (by decide) (by decide) (by decide) (by decide)

/-! ## Backward-clock handling -/

/-- **C3.** `NextID` panics ("clock moved backwards") exactly when the
current clock reading is strictly below the generator's `lastTimestamp`; in
that case no ID is produced and the state (`lastTimestamp`, `sequence`) is
left unchanged; in every other case — given that the clock eventually
advances, which the busy-wait relies on — the call returns a value. -/
theorem C3_panic_iff_backward_clock (s : SnowFlake) (now : Int) (fut : List Int) :
    ((nextID s now fut).1 = NextOutcome.panic ↔ now < s.lastTimestamp) ∧
    (now < s.lastTimestamp → (nextID s now fut).2 = s) ∧
    (¬ now < s.lastTimestamp → (∃ m ∈ fut, s.lastTimestamp < m) →
      ∃ id, (nextID s now fut).1 = NextOutcome.ok id) := by
  by_cases hlt : now < s.lastTimestamp
  · refine ⟨⟨fun _ => hlt, fun _ => by simp [nextID, hlt]⟩,
      fun _ => by simp [nextID, hlt], fun h => absurd hlt h⟩
  · have hn : nextID s now fut = lockedPhase s now fut := by
      simp [nextID, hlt]
    rw [hn]
    refine ⟨⟨?_, fun h => absurd h hlt⟩, fun h => absurd h hlt, ?_⟩
    · intro hp
      exfalso
      unfold lockedPhase at hp
      split_ifs at hp with heq hseq0
      · cases hf : findAdvance s.lastTimestamp fut with
        | none => rw [hf] at hp; simp at hp
        | some m => rw [hf] at hp; simp at hp
    · intro _ hex
      unfold lockedPhase
      split_ifs with heq hseq0
      · cases hf : findAdvance s.lastTimestamp fut with
        | none =>
          exfalso
          simp only [findAdvance] at hf
          rw [List.find?_eq_none] at hf
          obtain ⟨m, hm, hm2⟩ := hex
          exact hf m hm (decide_eq_true hm2)
        | some m =>
          exact ⟨_, rfl⟩
      · exact ⟨_, rfl⟩
      · exact ⟨_, rfl⟩

/-- Witness for C3: with `lastTimestamp = 10`, reading `9` panics and leaves
the state unchanged, while reading `10` (sequence not exhausted, clock
advancing to `11` available) returns an ID. -/
theorem C3_panic_iff_backward_clock_witness :
    (nextID ⟨0, 3, 5, 10, 0⟩ 9 []).1 = NextOutcome.panic ∧
    (nextID ⟨0, 3, 5, 10, 0⟩ 9 []).2 = ⟨0, 3, 5, 10, 0⟩ ∧
    ∃ id, (nextID ⟨4095, 3, 5, 10, 0⟩ 10 [10, 11]).1 = NextOutcome.ok id :=
  ⟨(C3_panic_iff_backward_clock ⟨0, 3, 5, 10, 0⟩ 9 []).1.mpr (by decide),
    (C3_panic_iff_backward_clock ⟨0, 3, 5, 10, 0⟩ 9 []).2.1 (by decide),
    (C3_panic_iff_backward_clock ⟨4095, 3, 5, 10, 0⟩ 10 [10, 11]).2.2 (by decide)
      ⟨11, by decide, by decide⟩⟩

/-! ## Construction -/

/-- **C4.** Explicit construction is total (`NewWith` always yields a
generator) and handles identity arity and range as follows: one identity
value sets both fields to that value; two values set the group id from the
first and the worker id from the second; each stored identity field is the
supplied value masked with `0x1F`; in particular value `37` yields effective
identity `5`. -/
theorem C4_explicit_construction (e : Int) (env : MachineEnv) :
    (∀ v : Nat, v < 256 →
      (NewWith e env [v]).dataCenterID = v &&& 31 ∧
      (NewWith e env [v]).workerID = v &&& 31) ∧
    (∀ v u : Nat, v < 256 → u < 256 →
      (NewWith e env [v, u]).dataCenterID = v &&& 31 ∧
      (NewWith e env [v, u]).workerID = u &&& 31) ∧
    ((NewWith e env [37]).dataCenterID = 5 ∧ (NewWith e env [37]).workerID = 5) := by
  refine ⟨?_, ?_, ?_⟩
  · intro v _
    constructor <;> simp [NewWith, dataCenterMask, workerMask]
  · intro v u _ _
    constructor <;> simp [NewWith, dataCenterMask, workerMask]
  · constructor <;> (simp [NewWith, dataCenterMask, workerMask]; decide)

/-- Witness for C4: constructing with the single out-of-range identity value
`37` stores `37 &&& 31 = 5` in both fields. -/
theorem C4_explicit_construction_witness :
    (NewWith 0 none [37]).dataCenterID = 37 &&& 31 ∧
    (NewWith 0 none [37]).workerID = 37 &&& 31 :=
  (C4_explicit_construction 0 none).1 37 (by decide)

/-- **C5 counterexample.** The claim "the epoch is the start of the current
UTC day at the moment `New` is called" fails: at instant `86399999` ms
(1970-01-01 23:59:59.999 UTC) on a host whose local zone is UTC+60 minutes,
the local calendar date is already 1970-01-02, so `New` sets the epoch to
`86400000` (midnight UTC of the *local* date) while the start of the current
UTC day is `0`. -/
theorem C5_epoch_not_start_of_utc_day :
    (New 86399999 60 none).startTimeMillis ≠ startOfUTCDaySpec 86399999 := by
  decide

/-- **C5 (amended).** Default construction sets the epoch to midnight UTC of
the calendar date of the moment of construction *in the system's local time
zone*; this coincides with the start of the current UTC day exactly when the
local and UTC day indices agree — in particular whenever the local offset is
zero. -/
theorem C5_epoch_midnight_of_local_date (nowMs offMin : Int) (env : MachineEnv) :
    (New nowMs offMin env).startTimeMillis = newStartTimeMillis nowMs offMin ∧
    ((nowMs + offMin * 60000) / 86400000 = nowMs / 86400000 →
      (New nowMs offMin env).startTimeMillis = startOfUTCDaySpec nowMs) ∧
    (New nowMs 0 env).startTimeMillis = startOfUTCDaySpec nowMs := by
  refine ⟨rfl, ?_, ?_⟩
  · intro h
    show newStartTimeMillis nowMs offMin = _
    unfold newStartTimeMillis startOfUTCDaySpec
    rw [h]
  · show newStartTimeMillis nowMs 0 = _
    unfold newStartTimeMillis startOfUTCDaySpec
    norm_num

/-- Witness for C5 (amended): at instant `5` ms with offset `+60` minutes the
local and UTC dates agree, and the epoch is the start of the UTC day. -/
theorem C5_epoch_midnight_of_local_date_witness :
    (New 5 60 none).startTimeMillis = startOfUTCDaySpec 5 :=
  (C5_epoch_midnight_of_local_date 5 60 none).2.1 (by decide)

/-! ## Node identity resolution -/

/-- **C6.** Given the host's interface address list, `machineID` returns the
third and fourth octets of the first non-loopback IPv4 address as the
`(group id, worker id)` pair, and returns `(0, 0)` when the address lookup
errors (`none`) or no non-loopback IPv4 address exists; being a total
function, it never propagates an error. -/
theorem C6_machineID_first_usable_ipv4 :
    machineID none = (0, 0) ∧
    ∀ as : List IfAddr,
      machineID (some as) =
        match as.find? usableIPv4 with
        | some a => octets34 a
        | none => (0, 0) := by
  refine ⟨rfl, ?_⟩
  intro as
  show machineIDLoop as = _
  induction as with
  | nil => rfl
  | cons a rest ih =>
    obtain ⟨ipnet, loopb, ip⟩ := a
    rcases ip with _ | ⟨o1, o2, o3, o4⟩ <;> cases ipnet <;> cases loopb <;>
      simp [machineIDLoop, usableIPv4, octets34, List.find?, ih]

/-! ## Sequence rollover -/

/-- **C7.** When a `NextID` call in the same millisecond as `lastTimestamp`
wraps the sequence to `0` (the generator already issued sequence `4095` in
this millisecond), the call busy-waits re-reading the clock until the first
reading `m` strictly above `lastTimestamp` and adopts it: the resulting ID
carries sequence `0` and a timestamp component strictly greater than the
`lastTimestamp` component carried by the preceding IDs of that millisecond;
if no supplied reading ever exceeds `lastTimestamp` the busy-wait does not
terminate (the wait relies on the clock eventually advancing). -/
theorem C7_sequence_rollover (s : SnowFlake) (fut : List Int) (m : Int)
    (hdc : s.dataCenterID ≤ 31) (hw : s.workerID ≤ 31)
    (hseq : s.sequence = 4095)
    (hfind : findAdvance s.lastTimestamp fut = some m)
    (hr : InRange s.startTimeMillis s.lastTimestamp)
    (hr2 : InRange s.startTimeMillis m) :
    nextID s s.lastTimestamp fut =
      (NextOutcome.ok (assembleID (m - s.startTimeMillis)
          s.dataCenterID s.workerID 0),
        { s with sequence := 0, lastTimestamp := m }) ∧
    s.lastTimestamp < m ∧ m ∈ fut ∧
    toUInt64pat (assembleID (m - s.startTimeMillis)
        s.dataCenterID s.workerID 0) >>> 22 = (m - s.startTimeMillis).toNat ∧
    (s.lastTimestamp - s.startTimeMillis).toNat < (m - s.startTimeMillis).toNat ∧
    ∀ fut2, findAdvance s.lastTimestamp fut2 = none →
      (nextID s s.lastTimestamp fut2).1 = NextOutcome.diverge := by
  have hwrap : (s.sequence + 1) &&& sequenceMask = 0 := by
    rw [hseq]
    decide
  have hm : s.lastTimestamp < m := by
    have hf2 := hfind
    simp only [findAdvance] at hf2
    have hp := List.find?_some (p := fun x => decide (s.lastTimestamp < x)) hf2
    exact of_decide_eq_true hp
  have hmem : m ∈ fut := by
    have hf2 := hfind
    simp only [findAdvance] at hf2
    exact List.mem_of_find?_eq_some hf2
  refine ⟨?_, hm, hmem, ?_, ?_, ?_⟩
  · unfold nextID lockedPhase
    rw [hwrap, hfind]
    simp
  · rw [toUInt64pat_assembleID _ _ _ _ (by omega) (by omega) hdc hw (by omega),
      Nat.shiftRight_eq_div_pow]
    omega
  · omega
  · intro fut2 hnone
    unfold nextID lockedPhase
    rw [hwrap, hnone]
    simp

/-- Witness for C7: a generator with identity `(1, 2)`, epoch `0`,
`lastTimestamp = 50` and exhausted sequence `4095`, called at millisecond
`50` with busy-wait readings `[50, 51]`: it adopts `51`. -/
theorem C7_sequence_rollover_witness :
    nextID ⟨4095, 1, 2, 50, 0⟩ 50 [50, 51] =
      (NextOutcome.ok (assembleID ((51 : Int) - 0) 1 2 0), ⟨0, 1, 2, 51, 0⟩) ∧
    (50 : Int) < 51 ∧ (51 : Int) ∈ [50, 51] ∧
    toUInt64pat (assembleID ((51 : Int) - 0) 1 2 0) >>> 22 =
      ((51 : Int) - 0).toNat ∧
    ((50 : Int) - 0).toNat < ((51 : Int) - 0).toNat ∧
    ∀ fut2, findAdvance 50 fut2 = none →
      (nextID ⟨4095, 1, 2, 50, 0⟩ 50 fut2).1 = NextOutcome.diverge := by
  have h := C7_sequence_rollover ⟨4095, 1, 2, 50, 0⟩ [50, 51] 51
    (by decide) (by decide) (by decide) (by decide) (by decide) (by decide)
  exact h

/-! ## Mutual exclusion (C8) -/

/-- `nextID` is definitionally the unlocked check phase followed by the
locked phase: the backward-clock comparison happens before the mutex is
taken. -/
lemma nextID_eq_check_then_locked (s : SnowFlake) (now : Int) (fut : List Int) :
    nextID s now fut =
      if checkPhase s now then (NextOutcome.panic, s)
      else lockedPhase s now fut := by
  by_cases h : now < s.lastTimestamp <;> simp [nextID, checkPhase, h]

/-- **C8 (code bug).** The spec requires the backward-clock comparison, the
sequence update and the `lastTimestamp` update to execute as one
mutually-exclusive critical section, but in the source the comparison
(line 75) runs *before* `s.mutex.Lock()` (line 79).  This interleaving is
therefore possible: on state `⟨sequence 4095, ids (0,0), lastTimestamp 100,
epoch 0⟩`, goroutines A and B both read clock `100`; A passes the unlocked
check; B then executes its whole call, busy-waiting to adopt millisecond
`101` and returning ID `423624704`; A resumes with only the locked phase,
sees `100 ≠ 101`, takes the new-millisecond branch, and returns ID
`419430400 < 423624704` while writing `lastTimestamp` back from `101` to
`100` — monotonicity is violated and the timestamp regresses with no panic
raised. -/
theorem C8_check_outside_mutex_race :
    checkPhase ⟨4095, 0, 0, 100, 0⟩ 100 = false ∧
    nextID ⟨4095, 0, 0, 100, 0⟩ 100 [101] =
      (NextOutcome.ok 423624704, ⟨0, 0, 0, 101, 0⟩) ∧
    lockedPhase ⟨0, 0, 0, 101, 0⟩ 100 [] =
      (NextOutcome.ok 419430400, ⟨0, 0, 0, 100, 0⟩) ∧
    (419430400 : Int) < 423624704 ∧
    (⟨0, 0, 0, 100, 0⟩ : SnowFlake).lastTimestamp <
      (⟨0, 0, 0, 101, 0⟩ : SnowFlake).lastTimestamp := by
  decide

/-! ## State invariant -/

/-- **C10.** After construction by either path and after every `NextID`
call, the generator's group (data-center) id and worker id are each in
`[0, 31]` and its sequence is in `[0, 4095]`; in particular identities
derived from IP octets (up to 255) are masked to 5 bits by `NewWith` just
like explicitly supplied ones. -/
theorem C10_state_invariant :
    (∀ (e : Int) (env : MachineEnv) (ids : List Nat), WF (NewWith e env ids)) ∧
    (∀ (nowMs offMin : Int) (env : MachineEnv), WF (New nowMs offMin env)) ∧
    (∀ (s : SnowFlake) (now : Int) (fut : List Int), WF s → WF (nextID s now fut).2) := by
  have hnw : ∀ (e : Int) (env : MachineEnv) (ids : List Nat), WF (NewWith e env ids) := by
    intro e env ids
    refine ⟨?_, ?_, ?_⟩
    · show _ &&& dataCenterMask ≤ 31
      exact le_trans Nat.and_le_right (by decide)
    · show _ &&& workerMask ≤ 31
      exact le_trans Nat.and_le_right (by decide)
    · exact Nat.le_refl 0 |>.trans (by omega)
  refine ⟨hnw, fun nowMs offMin env => hnw _ _ _, ?_⟩
  intro s now fut hWF
  unfold nextID lockedPhase
  split_ifs with h1 h2 h3
  · exact hWF
  · cases hf : findAdvance s.lastTimestamp fut with
    | none =>
      exact ⟨hWF.1, hWF.2.1, le_trans Nat.and_le_right (by decide)⟩
    | some m =>
      exact ⟨hWF.1, hWF.2.1, le_trans Nat.and_le_right (by decide)⟩
  · exact ⟨hWF.1, hWF.2.1, le_trans Nat.and_le_right (by decide)⟩
  · exact ⟨hWF.1, hWF.2.1, (by decide : (0 : Nat) ≤ 4095)⟩

/-- Witness for C10: the invariant holds after a concrete call on a
well-formed state. -/
theorem C10_state_invariant_witness : WF (nextID ⟨0, 3, 5, 10, 0⟩ 11 []).2 :=
  C10_state_invariant.2.2 ⟨0, 3, 5, 10, 0⟩ 11 [] (by decide)
